import Mathlib

/-!
Shallow embedding of `sqlx-core/src/postgres/types/record.rs`: the Postgres
composite ("record") value codec — `PgRecordEncoder` and `PgRecordDecoder`.

Bytes are modelled as `Nat` (each value `< 256` wherever it originates from a
real buffer), buffers as `List Nat`.  Rust code that can panic (unchecked
indexing, `copy_from_slice` with mismatched lengths, out-of-range slicing,
`bytes::Buf` reads past the end) is modelled with `Option`, where `none` is a
panic; a returned `Result::Err` is `Except.error`.
-/

/-- Big-endian bytes of `n` as a `u32` (`u32::to_be_bytes`); wraps modulo 2^32. -/
def u32Be (n : Nat) : List Nat :=
  [n / 16777216 % 256, n / 65536 % 256, n / 256 % 256, n % 256]

/-- Big-endian bytes of `i` as an `i32` (`i32::to_be_bytes`), two's complement. -/
def i32Be (i : Int) : List Nat :=
  u32Be ((i % 4294967296).toNat)

/-- Model of `bytes::Buf::get_u32`: read 4 big-endian bytes, advance past them.
`none` models the panic when fewer than 4 bytes remain. -/
def readU32 : List Nat → Option (Nat × List Nat)
  | a :: b :: c :: d :: rest => some ((((a * 256 + b) * 256 + c) * 256 + d, rest))
  | _ => none

/-- Model of `bytes::Buf::get_i32`: like `readU32` but two's-complement signed. -/
def readI32 (l : List Nat) : Option (Int × List Nat) :=
  (readU32 l).map fun vr =>
    (if vr.1 < 2147483648 then (vr.1 : Int) else (vr.1 : Int) - 4294967296, vr.2)

/-- UTF-8 bytes of one character (used to model `String::as_bytes`). -/
def charUtf8 (c : Char) : List Nat :=
  let n := c.toNat
  if n < 128 then [n]
  else if n < 2048 then [192 + n / 64, 128 + n % 64]
  else if n < 65536 then [224 + n / 4096, 128 + n / 64 % 64, 128 + n % 64]
  else [240 + n / 262144, 128 + n / 4096 % 64, 128 + n / 64 % 64, 128 + n % 64]

/-- UTF-8 bytes of a character list (model of `String::as_bytes`). -/
def listUtf8 (cs : List Char) : List Nat :=
  (cs.map charUtf8).flatten

/-- Bytes of an ASCII string literal, for stating concrete wire inputs. -/
def asciiBytes (s : String) : List Nat :=
  s.data.map Char.toNat

/-- Model of `<[u8]>::copy_from_slice` into the tail slice `buf[off..]`: replaces the
whole tail by `src`, and panics (`none`) unless `src` has exactly the tail's
length.  This is the backpatch operation the encoder performs. -/
def writeTail (buf : List Nat) (off : Nat) (src : List Nat) : Option (List Nat) :=
  if buf.length - off = src.length then some (buf.take off ++ src) else none

/-- Wire format of a value (`PgValueFormat`).  It selects which sub-protocol governs the value's bytes. -/
inductive PgValueFormat : Type where
  | Binary
  | Text

/-- Postgres type descriptor (`PgTypeInfo`), collapsed to what `record.rs`
inspects: its OID and its kind.  `record` is `PgType::Record` (kind Simple,
OID 2249); `simple` is any other resolved type of Simple kind; `composite`
carries the declared `(field name, type)` list; `withOid` is the bare
catalog-less descriptor built by `PgTypeInfo::with_oid`; `other` stands for
every remaining kind (array, enum, range, ...), all of which fall into the
`_` arm of the decoder's kind match. -/
inductive PgTy : Type where
  | record : PgTy
  | simple (oid : Nat) : PgTy
  | composite (oid : Nat) (fields : List (String × PgTy)) : PgTy
  | withOid (oid : Nat) : PgTy
  | other (oid : Nat) : PgTy

/-- Model of `PgTypeInfo::oid` (`PgType::oid`): the numeric identifier of the type. -/
def PgTy.oid : PgTy → Nat
  | .record => 2249
  | .simple n => n
  | .composite n _ => n
  | .withOid n => n
  | .other n => n

/-- The static type of a value handed to the encoder: either a resolved OID or
`PgType::DeclareWithName`, whose OID is filled in at statement preparation. -/
inductive PgEncTy : Type where
  | oid (n : Nat) : PgEncTy
  | declareWithName (name : String) : PgEncTy

/-- Modelled from the spec: the transport buffer (`PgArgumentBuffer`, whose
definition is not under `src/`): an append-only byte sequence that dereferences
to a plain byte vector, plus an out-of-band list of `(offset, type name)` pairs
recorded for the later type-hole rewrite pass. -/
structure PgArgumentBuffer : Type where
  bytes : List Nat
  typeHoles : List (Nat × String)

/-- Modelled from the spec: `PgArgumentBuffer::push_type_hole` appends a 4-byte
placeholder in place of the OID and records `(offset, name)` so a later pass
(outside this core) can rewrite the placeholder once the OID is known. -/
def PgArgumentBuffer.pushTypeHole (b : PgArgumentBuffer) (name : String) :
    PgArgumentBuffer :=
  { bytes := b.bytes ++ [0, 0, 0, 0],
    typeHoles := b.typeHoles ++ [(b.bytes.length, name)] }

/-- A value together with its Postgres codec as the encoder consumes it: its
static type, and what `Encode::encode` does to the buffer — `none` models
`IsNull::Yes` (nothing appended), `some bs` appends exactly `bs`. -/
structure EncValue : Type where
  ty : PgEncTy
  payload : Option (List Nat)

/-- State of `PgRecordEncoder`: destination buffer, offset of the 4-byte field-count
placeholder, and the field counter. -/
structure PgRecordEncoder : Type where
  buf : PgArgumentBuffer
  off : Nat
  num : Nat

/-- Model of `PgRecordEncoder::new`: remember the buffer's end as `off`, reserve a
4-byte zero placeholder for the field count, start the counter at 0. -/
def PgRecordEncoder.new (buf : PgArgumentBuffer) : PgRecordEncoder :=
  { buf := { buf with bytes := buf.bytes ++ u32Be 0 },
    off := buf.bytes.length,
    num := 0 }

/-- Model of `PgRecordEncoder::finish`: `self.buf[self.off..].copy_from_slice(&self.num.to_be_bytes())`.
Note the destination is the whole tail from `off`, exactly as in the source. -/
def PgRecordEncoder.finish (e : PgRecordEncoder) : Option PgRecordEncoder :=
  (writeTail e.buf.bytes e.off (u32Be e.num)).map fun bs =>
    { e with buf := { e.buf with bytes := bs } }

/-- Model of `PgRecordEncoder::encode`: write the type id (or push a type hole), reserve
a 4-byte length placeholder at `offset`, run the value's codec, then backpatch
with `(self.buf.len() - offset + 4) as i32` (or `-1` when the codec reports
NULL) via `self.buf[offset..].copy_from_slice(..)`.  The source never touches
`self.num`. -/
def PgRecordEncoder.encode (e : PgRecordEncoder) (v : EncValue) :
    Option PgRecordEncoder :=
  let buf1 :=
    match v.ty with
    | .declareWithName name => e.buf.pushTypeHole name
    | .oid n => { e.buf with bytes := e.buf.bytes ++ u32Be n }
  let offset := buf1.bytes.length
  let buf2 := { buf1 with bytes := buf1.bytes ++ u32Be 0 }
  let buf3 :=
    match v.payload with
    | none => buf2
    | some bs => { buf2 with bytes := buf2.bytes ++ bs }
  let size : Int :=
    match v.payload with
    | none => -1
    | some _ => ((buf3.bytes.length - offset + 4 : Nat) : Int)
  (writeTail buf3.bytes offset (i32Be size)).map fun bs =>
    { e with buf := { buf3 with bytes := bs } }

/-- The view handed to a field's `Decode` implementation (`PgValueRef` with
`row: None` elided): resolved type info, wire format, and the payload
(`none` = NULL). -/
structure PgValueRef : Type where
  type_info : PgTy
  format : PgValueFormat
  value : Option (List Nat)

/-- Modelled from the spec: the Value Codec capability (`Encode`/`Decode` for a
concrete Rust target type, not under `src/`): an acceptance predicate over
resolved types, a decode operation on a value view, and the target's natural
type (`T::type_info`). -/
structure ValueCodec (α : Type) : Type where
  accepts : PgTy → Bool
  decode : PgValueRef → Except String α
  typeInfo : PgTy

/-- Modelled from the spec: `mismatched_types` (in `error.rs`, not under
`src/`) builds the acceptance-failure message naming both types. -/
def mismatchedTypes (expected actual : PgTy) : String :=
  "mismatched types; Rust type (as SQL type " ++ toString expected.oid ++
    ") is not compatible with SQL type " ++ toString actual.oid

/-- The exhaustion message: `format!("no field `{0}` found on record", ind)`. -/
def noFieldMsg (ind : Nat) : String :=
  "no field `" ++ toString ind ++ "` found on record"

/-- State of `PgRecordDecoder`: working slice, the record value's own type descriptor,
wire format, and the position counter. -/
structure PgRecordDecoder : Type where
  buf : List Nat
  typ : PgTy
  fmt : PgValueFormat
  ind : Nat

/-- Model of `PgRecordDecoder::new` on a non-NULL value's raw bytes.  Binary: read and
discard the leading 4-byte field count (`get_u32` panics below 4 bytes).
Text: `buf = &buf[1..(buf.len() - 1)]`, which panics for lengths 0 and 1 and
performs no check that the stripped bytes are parentheses.  (The
`value.as_bytes()?` failure for a value without backing storage is an error
path ahead of this and is not modelled.) -/
def PgRecordDecoder.new (typ : PgTy) (fmt : PgValueFormat) (raw : List Nat) :
    Option PgRecordDecoder :=
  match fmt with
  | PgValueFormat.Binary =>
    match readU32 raw with
    | none => none
    | some (_, rest) => some { buf := rest, typ := typ, fmt := fmt, ind := 0 }
  | PgValueFormat.Text =>
    if raw.length < 2 then none
    else some { buf := (raw.drop 1).take (raw.length - 2), typ := typ,
                fmt := fmt, ind := 0 }

/-- The text-format field scan of `try_decode`, one field per call: consume
bytes until an unquoted comma (consumed, not kept) or exhaustion, returning the
accumulated field text, the `quoted` flag, and the remaining bytes.  Arguments
mirror the loop state: `element`, `quoted`, `in_quotes`, `in_escape`,
`prev_ch`. -/
def textScan : List Nat → List Char → Bool → Bool → Bool → Char →
    (List Char × Bool × List Nat)
  | [], element, quoted, _, _, _ => (element, quoted, [])
  | b :: rest, element, quoted, inQuotes, inEscape, prevCh =>
    let ch := Char.ofNat (b % 256)
    if inEscape then
      textScan rest (element ++ [ch]) quoted inQuotes false ch
    else if ch = '"' ∧ inQuotes then
      textScan rest element quoted false inEscape ch
    else if ch = '"' then
      textScan rest (if prevCh = '"' then element ++ ['"'] else element)
        true true inEscape ch
    else if ch = '\\' ∧ inEscape = false then
      textScan rest element quoted inQuotes true ch
    else if ch = ',' ∧ inQuotes = false then
      (element, quoted, rest)
    else
      textScan rest (element ++ [ch]) quoted inQuotes inEscape ch

/-- Tail of the binary path of `try_decode` once the element type is settled:
read the signed 4-byte length (panic below 4 bytes); negative means NULL
(advance nothing), otherwise slice exactly that many bytes (panic when they
exceed the remainder); advance the cursor and the position index; run the
target codec on the view.  (On a codec error the Rust decoder keeps the
advanced cursor; no claim depends on that, so the error carries no state.) -/
def binaryFinish {α : Type} (c : ValueCodec α) (s : PgRecordDecoder)
    (elementType : PgTy) (buf1 : List Nat) :
    Option (Except String (α × PgRecordDecoder)) :=
  match readI32 buf1 with
  | none => none
  | some (elementLen, buf2) =>
    if elementLen < 0 then
      some ((c.decode ⟨elementType, s.fmt, none⟩).map
        fun a => (a, { s with buf := buf2, ind := s.ind + 1 }))
    else
      if elementLen.toNat ≤ buf2.length then
        some ((c.decode ⟨elementType, s.fmt, some (buf2.take elementLen.toNat)⟩).map
          fun a => (a, { s with buf := buf2.drop elementLen.toNat, ind := s.ind + 1 }))
      else none

/-- Model of `PgRecordDecoder::try_decode::<T>`, with the external Type Catalog
(`PgTypeInfo::try_from_oid`) threaded through as `catalog` and the target
type's codec as `c`.  Mirrors the source: empty-slice guard first, then the
per-format paths. -/
def tryDecode {α : Type} (catalog : Nat → Option PgTy) (c : ValueCodec α)
    (s : PgRecordDecoder) : Option (Except String (α × PgRecordDecoder)) :=
  if s.buf = [] then
    some (Except.error (noFieldMsg s.ind))
  else
    match s.fmt with
    | PgValueFormat.Binary =>
      match readU32 s.buf with
      | none => none
      | some (elementTypeOid, buf1) =>
        match s.typ with
        | PgTy.record =>
          match catalog elementTypeOid with
          | some ty =>
            if c.accepts ty then binaryFinish c s ty buf1
            else some (Except.error (mismatchedTypes c.typeInfo ty))
          | none => binaryFinish c s (PgTy.withOid elementTypeOid) buf1
        | PgTy.composite _ fields =>
          if h : s.ind < fields.length then
            let ty := (fields.get ⟨s.ind, h⟩).2
            if ty.oid = elementTypeOid then
              if c.accepts ty then binaryFinish c s ty buf1
              else some (Except.error (mismatchedTypes c.typeInfo ty))
            else
              some (Except.error "unexpected mismatch of composite type information")
          else none
        | _ =>
          some (Except.error "unexpected non-composite type being decoded as a composite type")
    | PgValueFormat.Text =>
      match textScan s.buf [] false false false (Char.ofNat 0) with
      | (element, quoted, rest) =>
        let payload :=
          if element.isEmpty && !quoted then none else some (listUtf8 element)
        some ((c.decode ⟨PgTy.withOid 0, PgValueFormat.Text, payload⟩).map
          fun a => (a, { s with buf := rest }))

/-- The identity codec: accepts everything and returns the value view itself,
exposing exactly what the decoder hands to a field's `Decode` implementation. -/
def viewCodec : ValueCodec PgValueRef :=
  { accepts := fun _ => true, decode := Except.ok, typeInfo := PgTy.record }

/-- Zero or more successful `try_decode` calls (possibly with different target
codecs) taking one decoder state to another. -/
inductive DecodeReaches (catalog : Nat → Option PgTy) :
    PgRecordDecoder → PgRecordDecoder → Prop where
  | refl (s : PgRecordDecoder) : DecodeReaches catalog s s
  | step {s s' s'' : PgRecordDecoder} {α : Type} (c : ValueCodec α) (a : α) :
      tryDecode catalog c s = some (Except.ok (a, s')) →
      DecodeReaches catalog s' s'' → DecodeReaches catalog s s''

/-! ## Helper lemmas -/

theorem readU32_u32Be (k : Nat) (rest : List Nat) (h : k < 4294967296) :
    readU32 (u32Be k ++ rest) = some (k, rest) := by
  simp only [u32Be, List.cons_append, List.nil_append, readU32,
    Option.some.injEq, Prod.mk.injEq]
  exact ⟨by omega, trivial⟩

theorem i32Be_ofNat (n : Nat) (h : n < 4294967296) :
    i32Be (n : Int) = u32Be n := by
  unfold i32Be
  have h1 : (((n : Int)) % 4294967296).toNat = n := by omega
  rw [h1]

theorem readI32_i32Be_ofNat (n : Nat) (rest : List Nat) (h : n < 2147483648) :
    readI32 (i32Be (n : Int) ++ rest) = some ((n : Int), rest) := by
  rw [i32Be_ofNat n (by omega)]
  unfold readI32
  rw [readU32_u32Be n rest (by omega)]
  simp [h]

theorem readU32_isSome_of_length : ∀ {l : List Nat}, 4 ≤ l.length →
    ∃ v rest, readU32 l = some (v, rest)
  | [], h => absurd h (by simp)
  | [_], h => absurd h (by simp)
  | [_, _], h => absurd h (by simp)
  | [_, _, _], h => absurd h (by simp)
  | _ :: _ :: _ :: _ :: _, _ => ⟨_, _, rfl⟩

theorem tryDecode_empty {α : Type} (catalog : Nat → Option PgTy)
    (c : ValueCodec α) (s : PgRecordDecoder) (h : s.buf = []) :
    tryDecode catalog c s = some (Except.error (noFieldMsg s.ind)) := by
  unfold tryDecode
  rw [if_pos h]

theorem binaryFinish_ok {α : Type} {c : ValueCodec α} {s : PgRecordDecoder}
    {ty : PgTy} {buf1 : List Nat} {a : α} {s' : PgRecordDecoder}
    (h : binaryFinish c s ty buf1 = some (Except.ok (a, s'))) :
    s'.ind = s.ind + 1 ∧ s'.fmt = s.fmt ∧ s'.typ = s.typ := by
  unfold binaryFinish at h
  split at h
  · simp at h
  · split at h
    · cases hd : c.decode ⟨ty, s.fmt, none⟩ with
      | error e => rw [hd] at h; simp [Except.map] at h
      | ok b =>
        rw [hd] at h
        simp only [Except.map, Option.some.injEq, Except.ok.injEq,
          Prod.mk.injEq] at h
        rw [← h.2]
        exact ⟨rfl, rfl, rfl⟩
    · split at h
      · cases hd : c.decode ⟨ty, s.fmt, some _⟩ with
        | error e => rw [hd] at h; simp [Except.map] at h
        | ok b =>
          rw [hd] at h
          simp only [Except.map, Option.some.injEq, Except.ok.injEq,
            Prod.mk.injEq] at h
          rw [← h.2]
          exact ⟨rfl, rfl, rfl⟩
      · simp at h

theorem tryDecode_binary_ok {α : Type} {catalog : Nat → Option PgTy}
    {c : ValueCodec α} {s : PgRecordDecoder} {a : α} {s' : PgRecordDecoder}
    (hfmt : s.fmt = PgValueFormat.Binary)
    (h : tryDecode catalog c s = some (Except.ok (a, s'))) :
    s'.ind = s.ind + 1 ∧ s'.fmt = s.fmt ∧ s'.typ = s.typ := by
  obtain ⟨buf, typ, fmt, ind⟩ := s
  obtain rfl : fmt = PgValueFormat.Binary := hfmt
  unfold tryDecode at h
  dsimp only at h
  split at h
  · simp at h
  · split at h
    · simp at h
    · split at h
      · split at h
        · split at h
          · exact binaryFinish_ok h
          · simp at h
        · exact binaryFinish_ok h
      · split at h
        · split at h
          · split at h
            · exact binaryFinish_ok h
            · simp at h
          · simp at h
        · simp at h
      · simp at h

theorem tryDecode_text_ok {α : Type} {catalog : Nat → Option PgTy}
    {c : ValueCodec α} {s : PgRecordDecoder} {a : α} {s' : PgRecordDecoder}
    (hfmt : s.fmt = PgValueFormat.Text)
    (h : tryDecode catalog c s = some (Except.ok (a, s'))) :
    s'.ind = s.ind ∧ s'.fmt = PgValueFormat.Text ∧ s'.typ = s.typ := by
  obtain ⟨buf, typ, fmt, ind⟩ := s
  obtain rfl : fmt = PgValueFormat.Text := hfmt
  unfold tryDecode at h
  dsimp only at h
  split at h
  · simp at h
  · split at h
    · cases hd : c.decode ⟨PgTy.withOid 0, PgValueFormat.Text, none⟩ with
      | error e => rw [hd] at h; simp [Except.map] at h
      | ok b =>
        rw [hd] at h
        simp only [Except.map, Option.some.injEq, Except.ok.injEq,
          Prod.mk.injEq] at h
        rw [← h.2]
        exact ⟨rfl, rfl, rfl⟩
    · cases hd : c.decode ⟨PgTy.withOid 0, PgValueFormat.Text,
          some (listUtf8 (textScan buf [] false false false (Char.ofNat 0)).1)⟩ with
      | error e => rw [hd] at h; simp [Except.map] at h
      | ok b =>
        rw [hd] at h
        simp only [Except.map, Option.some.injEq, Except.ok.injEq,
          Prod.mk.injEq] at h
        rw [← h.2]
        exact ⟨rfl, rfl, rfl⟩

theorem reaches_text_preserves (catalog : Nat → Option PgTy) :
    ∀ {s₀ s₁ : PgRecordDecoder}, DecodeReaches catalog s₀ s₁ →
      s₀.fmt = PgValueFormat.Text →
      s₁.ind = s₀.ind ∧ s₁.fmt = PgValueFormat.Text := by
  intro s₀ s₁ hreach
  induction hreach with
  | refl s => exact fun hf => ⟨rfl, hf⟩
  | step c a hstep _ ih =>
    intro hf
    obtain ⟨hind, hfmt, -⟩ := tryDecode_text_ok hf hstep
    obtain ⟨ih1, ih2⟩ := ih hfmt
    exact ⟨by rw [ih1, hind], ih2⟩

/-! ## Claims -/

/-- C1: the claim says the 4-byte big-endian field-count written at the
offset reserved by `new()` equals the number of `encode` calls made before
`finish()`.  The code violates it twice over: `encode` never increments
`self.num` (so after one encode the counter is still 0), and `finish`'s
`copy_from_slice` destination `self.buf[self.off..]` is the whole tail of the
buffer (12 bytes after a single NULL field), not the 4 reserved bytes, so
`finish` panics instead of writing the count. -/
theorem c1_field_count_bug :
    ((PgRecordEncoder.new ⟨[], []⟩).encode ⟨PgEncTy.oid 23, none⟩).map
        PgRecordEncoder.num = some 0 ∧
    ((PgRecordEncoder.new ⟨[], []⟩).encode ⟨PgEncTy.oid 23, none⟩).bind
        PgRecordEncoder.finish = none :=
  ⟨rfl, rfl⟩

/-- C2: the claim says the length backpatch writes exactly the number of bytes
appended by the value codec into exactly the 4 reserved placeholder bytes.
The code computes `(buf.len() - offset + 4)` — payload length + 8 — and its
`copy_from_slice` destination is `self.buf[offset..]`, the whole tail: for a
1-byte payload the destination has 5 bytes and the backpatch panics; for a
0-byte payload it writes 8 (not 0) into the placeholder. -/
theorem c2_length_backpatch_bug :
    (PgRecordEncoder.new ⟨[], []⟩).encode ⟨PgEncTy.oid 23, some [171]⟩ = none ∧
    ((PgRecordEncoder.new ⟨[], []⟩).encode ⟨PgEncTy.oid 23, some []⟩).map
        (fun e => e.buf.bytes) = some [0, 0, 0, 0, 0, 0, 0, 23, 0, 0, 0, 8] :=
  ⟨rfl, rfl⟩

/-- C3: the claimed encode/decode round-trip already fails at N = 1: encoding
a single 4-byte value (an INT4 with payload `u32Be 7`) panics inside the
length backpatch, so the encoder produces no wire bytes for the decoder to
read back. -/
theorem c3_roundtrip_encoder_panics :
    (PgRecordEncoder.new ⟨[], []⟩).encode ⟨PgEncTy.oid 23, some (u32Be 7)⟩ =
      none :=
  rfl

/-- C4 counterexample: on the text-format raw bytes `(,)` the two successive
`try_decode` calls do NOT both succeed: the first yields a NULL field, but it
consumes the delimiter comma, leaving the working slice empty, so the second
call fails with the exhaustion error instead of yielding the second NULL. -/
theorem c4_counterexample :
    PgRecordDecoder.new PgTy.record PgValueFormat.Text (asciiBytes "(,)") =
      some ⟨[44], PgTy.record, PgValueFormat.Text, 0⟩ ∧
    tryDecode (fun _ => none) viewCodec
        ⟨[44], PgTy.record, PgValueFormat.Text, 0⟩ =
      some (Except.ok (⟨PgTy.withOid 0, PgValueFormat.Text, none⟩,
        ⟨[], PgTy.record, PgValueFormat.Text, 0⟩)) ∧
    tryDecode (fun _ => none) viewCodec
        ⟨[], PgTy.record, PgValueFormat.Text, 0⟩ =
      some (Except.error "no field `0` found on record") :=
  ⟨rfl, rfl, rfl⟩

/-- C4 (amended): for raw bytes `(,)` the first `try_decode` yields a NULL
field (payload absent) and the second fails with the exhaustion error
naming index 0; for raw bytes `("",)` the first `try_decode` yields a
non-NULL empty-string payload and the second likewise fails with the
exhaustion error naming index 0 — the field after the final comma is never
reachable because the scan for the previous field consumes the comma and
leaves the working slice empty. -/
theorem c4_text_empty_vs_null :
    (PgRecordDecoder.new PgTy.record PgValueFormat.Text (asciiBytes "(,)") =
      some ⟨[44], PgTy.record, PgValueFormat.Text, 0⟩) ∧
    (tryDecode (fun _ => none) viewCodec
        ⟨[44], PgTy.record, PgValueFormat.Text, 0⟩ =
      some (Except.ok (⟨PgTy.withOid 0, PgValueFormat.Text, none⟩,
        ⟨[], PgTy.record, PgValueFormat.Text, 0⟩))) ∧
    (tryDecode (fun _ => none) viewCodec
        ⟨[], PgTy.record, PgValueFormat.Text, 0⟩ =
      some (Except.error (noFieldMsg 0))) ∧
    (PgRecordDecoder.new PgTy.record PgValueFormat.Text (asciiBytes "(\"\",)") =
      some ⟨[34, 34, 44], PgTy.record, PgValueFormat.Text, 0⟩) ∧
    (tryDecode (fun _ => none) viewCodec
        ⟨[34, 34, 44], PgTy.record, PgValueFormat.Text, 0⟩ =
      some (Except.ok (⟨PgTy.withOid 0, PgValueFormat.Text, some []⟩,
        ⟨[], PgTy.record, PgValueFormat.Text, 0⟩))) :=
  ⟨rfl, rfl, rfl, rfl, rfl⟩

/-- C7: text-format escape handling.  For input `(a\,b,c)` the two fields
decode to the byte strings of `a,b` and `c`; for input `("say ""hi""",x)`
they decode to the bytes of `say "hi"` and `x`: backslash escaping and
doubled-quote escaping are removed and delimiting quotes are not part of the
field text. -/
theorem c7_text_escapes :
    (PgRecordDecoder.new PgTy.record PgValueFormat.Text
        (asciiBytes "(a\\,b,c)") =
      some ⟨asciiBytes "a\\,b,c", PgTy.record, PgValueFormat.Text, 0⟩) ∧
    (tryDecode (fun _ => none) viewCodec
        ⟨asciiBytes "a\\,b,c", PgTy.record, PgValueFormat.Text, 0⟩ =
      some (Except.ok
        (⟨PgTy.withOid 0, PgValueFormat.Text, some (asciiBytes "a,b")⟩,
         ⟨asciiBytes "c", PgTy.record, PgValueFormat.Text, 0⟩))) ∧
    (tryDecode (fun _ => none) viewCodec
        ⟨asciiBytes "c", PgTy.record, PgValueFormat.Text, 0⟩ =
      some (Except.ok
        (⟨PgTy.withOid 0, PgValueFormat.Text, some (asciiBytes "c")⟩,
         ⟨[], PgTy.record, PgValueFormat.Text, 0⟩))) ∧
    (PgRecordDecoder.new PgTy.record PgValueFormat.Text
        (asciiBytes "(\"say \"\"hi\"\"\",x)") =
      some ⟨asciiBytes "\"say \"\"hi\"\"\",x", PgTy.record,
        PgValueFormat.Text, 0⟩) ∧
    (tryDecode (fun _ => none) viewCodec
        ⟨asciiBytes "\"say \"\"hi\"\"\",x", PgTy.record,
          PgValueFormat.Text, 0⟩ =
      some (Except.ok
        (⟨PgTy.withOid 0, PgValueFormat.Text, some (asciiBytes "say \"hi\"")⟩,
         ⟨asciiBytes "x", PgTy.record, PgValueFormat.Text, 0⟩))) ∧
    (tryDecode (fun _ => none) viewCodec
        ⟨asciiBytes "x", PgTy.record, PgValueFormat.Text, 0⟩ =
      some (Except.ok
        (⟨PgTy.withOid 0, PgValueFormat.Text, some (asciiBytes "x")⟩,
         ⟨[], PgTy.record, PgValueFormat.Text, 0⟩))) :=
  ⟨rfl, rfl, rfl, rfl, rfl, rfl⟩

/-- C5: in a binary-format decode whose record descriptor is Composite, if the
declared field at the current position index has an OID different from the
4-byte OID read from the payload, `try_decode` returns the error
"unexpected mismatch of composite type information" — for every target codec
`c`, so the field's decode operation is never reached. -/
theorem c5_composite_oid_mismatch
    (catalog : Nat → Option PgTy) {α : Type} (c : ValueCodec α)
    (s : PgRecordDecoder) (o oid : Nat) (fields : List (String × PgTy))
    (buf1 : List Nat)
    (hfmt : s.fmt = PgValueFormat.Binary)
    (htyp : s.typ = PgTy.composite o fields)
    (hread : readU32 s.buf = some (oid, buf1))
    (hlt : s.ind < fields.length)
    (hne : (fields.get ⟨s.ind, hlt⟩).2.oid ≠ oid) :
    tryDecode catalog c s =
      some (Except.error "unexpected mismatch of composite type information") := by
  obtain ⟨buf, typ, fmt, ind⟩ := s
  obtain rfl : fmt = PgValueFormat.Binary := hfmt
  obtain rfl : typ = PgTy.composite o fields := htyp
  have hbuf : buf ≠ [] := by
    intro hb
    subst hb
    simp [readU32] at hread
  unfold tryDecode
  rw [if_neg hbuf]
  dsimp only
  rw [hread]
  dsimp only
  rw [dif_pos hlt, if_neg hne]

/-- Witness for C5 at a concrete decoder state: declared field type INT-like
OID 7 at position 0 versus payload OID 5. -/
theorem c5_witness :
    tryDecode (fun _ => none) viewCodec
      ⟨[0, 0, 0, 5], PgTy.composite 99 [("f", PgTy.simple 7)],
        PgValueFormat.Binary, 0⟩ =
      some (Except.error "unexpected mismatch of composite type information") :=
  c5_composite_oid_mismatch (fun _ => none) viewCodec _ 99 5
    [("f", PgTy.simple 7)] [] rfl rfl rfl (by decide) (by decide)

/-- C6 counterexample: in text format the position index is never advanced, so
after successfully decoding two fields of `(a,b)` the third call fails naming
index 0, not index 2 as the claim requires for "either wire format". -/
theorem c6_counterexample :
    (PgRecordDecoder.new PgTy.record PgValueFormat.Text (asciiBytes "(a,b)") =
      some ⟨[97, 44, 98], PgTy.record, PgValueFormat.Text, 0⟩) ∧
    (tryDecode (fun _ => none) viewCodec
        ⟨[97, 44, 98], PgTy.record, PgValueFormat.Text, 0⟩ =
      some (Except.ok (⟨PgTy.withOid 0, PgValueFormat.Text, some [97]⟩,
        ⟨[98], PgTy.record, PgValueFormat.Text, 0⟩))) ∧
    (tryDecode (fun _ => none) viewCodec
        ⟨[98], PgTy.record, PgValueFormat.Text, 0⟩ =
      some (Except.ok (⟨PgTy.withOid 0, PgValueFormat.Text, some [98]⟩,
        ⟨[], PgTy.record, PgValueFormat.Text, 0⟩))) ∧
    (tryDecode (fun _ => none) viewCodec
        ⟨[], PgTy.record, PgValueFormat.Text, 0⟩ =
      some (Except.error "no field `0` found on record")) ∧
    "no field `0` found on record" ≠ "no field `2` found on record" :=
  ⟨rfl, rfl, rfl, rfl, by decide⟩

/-- C6 (amended): a `try_decode` call on an empty working slice always fails
with "no field `<index>` found on record" where `<index>` is the decoder's
position counter; in binary format each successful decode increments that
counter by one (so it equals the number of fields already decoded), while in
text format successful decodes leave it unchanged. -/
theorem c6_exhaustion_index :
    (∀ (catalog : Nat → Option PgTy) (α : Type) (c : ValueCodec α)
        (s : PgRecordDecoder), s.buf = [] →
        tryDecode catalog c s = some (Except.error (noFieldMsg s.ind))) ∧
    (∀ (catalog : Nat → Option PgTy) (α : Type) (c : ValueCodec α)
        (s : PgRecordDecoder) (a : α) (s' : PgRecordDecoder),
        s.fmt = PgValueFormat.Binary →
        tryDecode catalog c s = some (Except.ok (a, s')) →
        s'.ind = s.ind + 1) ∧
    (∀ (catalog : Nat → Option PgTy) (α : Type) (c : ValueCodec α)
        (s : PgRecordDecoder) (a : α) (s' : PgRecordDecoder),
        s.fmt = PgValueFormat.Text →
        tryDecode catalog c s = some (Except.ok (a, s')) →
        s'.ind = s.ind) :=
  ⟨fun catalog _ c s h => tryDecode_empty catalog c s h,
   fun _ _ _ _ _ _ hf h => (tryDecode_binary_ok hf h).1,
   fun _ _ _ _ _ _ hf h => (tryDecode_text_ok hf h).1⟩

/-- Witness for C6 at concrete states: exhaustion at position 2 names index 2;
a successful binary decode of a NULL INT-like field advances the index from 0
to 1; a successful text decode leaves the index at 0. -/
theorem c6_witness :
    (tryDecode (fun _ => none) viewCodec
        ⟨[], PgTy.record, PgValueFormat.Binary, 2⟩ =
      some (Except.error (noFieldMsg 2))) ∧
    ((⟨[], PgTy.record, PgValueFormat.Binary, 1⟩ : PgRecordDecoder).ind = 0 + 1) ∧
    ((⟨[], PgTy.record, PgValueFormat.Text, 0⟩ : PgRecordDecoder).ind = 0) :=
  ⟨c6_exhaustion_index.1 (fun _ => none) PgValueRef viewCodec _ rfl,
   c6_exhaustion_index.2.1 (fun _ => none) PgValueRef viewCodec
     ⟨[0, 0, 0, 5, 255, 255, 255, 255], PgTy.record, PgValueFormat.Binary, 0⟩
     ⟨PgTy.withOid 5, PgValueFormat.Binary, none⟩
     ⟨[], PgTy.record, PgValueFormat.Binary, 1⟩ rfl rfl,
   c6_exhaustion_index.2.2 (fun _ => none) PgValueRef viewCodec
     ⟨[97], PgTy.record, PgValueFormat.Text, 0⟩
     ⟨PgTy.withOid 0, PgValueFormat.Text, some [97]⟩
     ⟨[], PgTy.record, PgValueFormat.Text, 0⟩ rfl rfl⟩

/-- C8: the two unchecked panic points of the binary path.  (1) On a
Composite-kind record, a call whose position index is at or past the declared
field list's length panics (`fields[self.ind]` out of range) instead of
returning an error.  (2) A non-negative declared field length larger than the
remaining payload panics (`&self.buf[..len]` out of range) instead of
returning an error. -/
theorem c8_binary_panics :
    (∀ (catalog : Nat → Option PgTy) (α : Type) (c : ValueCodec α)
        (s : PgRecordDecoder) (o : Nat) (fields : List (String × PgTy)),
        s.fmt = PgValueFormat.Binary → s.typ = PgTy.composite o fields →
        fields.length ≤ s.ind → 4 ≤ s.buf.length →
        tryDecode catalog c s = none) ∧
    (∀ (catalog : Nat → Option PgTy) (α : Type) (c : ValueCodec α)
        (s : PgRecordDecoder) (oid n : Nat) (tail : List Nat),
        s.fmt = PgValueFormat.Binary → s.typ = PgTy.record →
        s.buf = u32Be oid ++ (i32Be (n : Int) ++ tail) →
        oid < 4294967296 → n < 2147483648 → tail.length < n →
        (∀ ty, catalog oid = some ty → c.accepts ty = true) →
        tryDecode catalog c s = none) := by
  constructor
  · intro catalog α c s o fields hfmt htyp hge hlen
    obtain ⟨buf, typ, fmt, ind⟩ := s
    obtain rfl : fmt = PgValueFormat.Binary := hfmt
    obtain rfl : typ = PgTy.composite o fields := htyp
    dsimp only at hge hlen
    obtain ⟨v, rest, hr⟩ := readU32_isSome_of_length hlen
    have hbuf : buf ≠ [] := by
      intro hb
      subst hb
      simp at hlen
    unfold tryDecode
    rw [if_neg hbuf]
    dsimp only
    rw [hr]
    dsimp only
    rw [dif_neg (by omega)]
  · intro catalog α c s oid n tail hfmt htyp hbuf h32 h31 hlen hacc
    obtain ⟨buf, typ, fmt, ind⟩ := s
    obtain rfl : fmt = PgValueFormat.Binary := hfmt
    obtain rfl : typ = PgTy.record := htyp
    obtain rfl : buf = u32Be oid ++ (i32Be (n : Int) ++ tail) := hbuf
    have hne : u32Be oid ++ (i32Be (n : Int) ++ tail) ≠ [] := by
      simp [u32Be]
    unfold tryDecode
    rw [if_neg hne]
    dsimp only
    rw [readU32_u32Be oid _ h32]
    dsimp only
    cases hc : catalog oid with
    | none =>
      dsimp only
      unfold binaryFinish
      rw [readI32_i32Be_ofNat n tail h31]
      dsimp only
      rw [if_neg (by omega), if_neg (by omega)]
    | some ty =>
      dsimp only
      rw [if_pos (hacc ty hc)]
      unfold binaryFinish
      rw [readI32_i32Be_ofNat n tail h31]
      dsimp only
      rw [if_neg (by omega), if_neg (by omega)]

/-- Witness for C8 at concrete states: a Composite record with an empty
declared field list and a well-formed 4-byte OID read panics; a RECORD-typed
value declaring a 3-byte field with only 1 byte remaining panics. -/
theorem c8_witness :
    (tryDecode (fun _ => none) viewCodec
        ⟨[0, 0, 0, 7], PgTy.composite 1 [], PgValueFormat.Binary, 0⟩ =
      none) ∧
    (tryDecode (fun _ => none) viewCodec
        ⟨[0, 0, 0, 5, 0, 0, 0, 3, 9], PgTy.record, PgValueFormat.Binary, 0⟩ =
      none) :=
  ⟨c8_binary_panics.1 (fun _ => none) PgValueRef viewCodec _ 1 [] rfl rfl
     (by decide) (by decide),
   c8_binary_panics.2 (fun _ => none) PgValueRef viewCodec _ 5 3 [9] rfl rfl
     rfl (by decide) (by decide) (by decide) (fun _ h => Option.noConfusion h)⟩

/-- C9: the decoder constructor `PgRecordDecoder.new` on a text-format value strips one leading and
one trailing byte unchecked: it panics on a 0-byte slice (index underflow)
and on a 1-byte slice without a closing parenthesis (and indeed on any 1-byte
slice), and for longer slices it never verifies that the stripped bytes are
`(` and `)` — it succeeds on arbitrary bytes, keeping exactly the interior. -/
theorem c9_text_new_unchecked :
    (∀ t : PgTy, PgRecordDecoder.new t PgValueFormat.Text [] = none) ∧
    (∀ (t : PgTy) (b : Nat), b ≠ 41 →
      PgRecordDecoder.new t PgValueFormat.Text [b] = none) ∧
    (∀ (t : PgTy) (bs : List Nat), 2 ≤ bs.length →
      PgRecordDecoder.new t PgValueFormat.Text bs =
        some ⟨(bs.drop 1).take (bs.length - 2), t, PgValueFormat.Text, 0⟩) := by
  refine ⟨fun t => rfl, fun t b hb => rfl, fun t bs hlen => ?_⟩
  unfold PgRecordDecoder.new
  rw [if_neg (by omega)]

/-- Witness for C9: the empty slice, the 1-byte slice `x` (not `)`), and the
3-byte slice `[1, 2, 3]` whose first and last bytes are not parentheses yet
are silently stripped. -/
theorem c9_witness :
    (PgRecordDecoder.new PgTy.record PgValueFormat.Text [] = none) ∧
    (PgRecordDecoder.new PgTy.record PgValueFormat.Text [120] = none) ∧
    (PgRecordDecoder.new PgTy.record PgValueFormat.Text [1, 2, 3] =
      some ⟨[2], PgTy.record, PgValueFormat.Text, 0⟩) :=
  ⟨c9_text_new_unchecked.1 PgTy.record,
   c9_text_new_unchecked.2.1 PgTy.record 120 (by decide),
   c9_text_new_unchecked.2.2 PgTy.record [1, 2, 3] (by decide)⟩

/-- C10: in text format the position index is never advanced: starting from a
text-format decoder with index 0 (as built by `new`), after any number of
successful `try_decode` calls the index is still 0, and therefore an
exhaustion error raised on the empty working slice names field index 0 no
matter how many fields were already consumed. -/
theorem c10_text_index_stays_zero
    (catalog : Nat → Option PgTy) (s₀ s₁ : PgRecordDecoder)
    (hfmt : s₀.fmt = PgValueFormat.Text) (hind : s₀.ind = 0)
    (hreach : DecodeReaches catalog s₀ s₁) :
    s₁.ind = 0 ∧
    (s₁.buf = [] → ∀ (α : Type) (c : ValueCodec α),
      tryDecode catalog c s₁ = some (Except.error (noFieldMsg 0))) := by
  obtain ⟨h1, _⟩ := reaches_text_preserves catalog hreach hfmt
  have hz : s₁.ind = 0 := by rw [h1, hind]
  refine ⟨hz, fun hb α c => ?_⟩
  rw [← hz]
  exact tryDecode_empty catalog c s₁ hb

/-- Witness for C10: one successful text decode of `(a)`'s single field, then
the exhaustion error naming index 0. -/
theorem c10_witness :
    tryDecode (fun _ => none) viewCodec
      ⟨[], PgTy.record, PgValueFormat.Text, 0⟩ =
      some (Except.error (noFieldMsg 0)) :=
  (c10_text_index_stays_zero (fun _ => none)
    ⟨[97], PgTy.record, PgValueFormat.Text, 0⟩
    ⟨[], PgTy.record, PgValueFormat.Text, 0⟩ rfl rfl
    (DecodeReaches.step viewCodec
      ⟨PgTy.withOid 0, PgValueFormat.Text, some [97]⟩ rfl
      (DecodeReaches.refl _))).2 rfl PgValueRef viewCodec
